import Mathlib

/-!
Shallow embedding of the jupt conversational-search core: the server-side
response relay (`functions/api/search.ts`, `onRequestPost`) and the
client-side stream assembler (the `handleSearch` routine of the app
component).  Text is modelled as `String` / `List Char`; upstream byte
streams as `List Nat` (one `Nat` per byte); JSON parsing of upstream and
wire lines is an explicit function parameter (`List Char → Option _`)
standing for the environment's `JSON.parse`.
-/

namespace Jupt

/-! ## Basic text helpers -/

/-- Whitespace recognised by the JS `String.prototype.trim` model
(space, tab, newline, carriage return; the full JS set also has exotic
Unicode spaces, which never occur in the strings of this development). -/
def isWsChar (c : Char) : Bool :=
  c = ' ' || c = '\t' || c = '\n' || c = '\r'

/-- Model of JS `String.prototype.trim` on a character list. -/
def trimChars (l : List Char) : List Char :=
  ((l.dropWhile isWsChar).reverse.dropWhile isWsChar).reverse

/-- Model of JS `String.prototype.trim` on a `String`. -/
def trimString (s : String) : String := String.mk (trimChars s.data)

/-- Does `pat` occur at the head of `text`? (list prefix test) -/
def leadsWith : List Char → List Char → Bool
  | [], _ => true
  | _ :: _, [] => false
  | a :: as, b :: bs => a = b && leadsWith as bs

/-- Does `pat` occur anywhere inside `text`?  Models a regex
alternative such as `/pat/.test(text)` for a literal pattern. -/
def hasSub (pat : List Char) : List Char → Bool
  | [] => leadsWith pat []
  | c :: rest => leadsWith pat (c :: rest) || hasSub pat rest

/-- JS truthy-or-default on an optional string: `x || dflt` where both
`undefined`/absent and the empty string are falsy. -/
def orFalsy (x : Option String) (dflt : String) : String :=
  match x with
  | none => dflt
  | some s => if s = "" then dflt else s

/-- Left-fold string concatenation, the reference meaning of
`d1 + d2 + ... + dn` for a delta sequence. -/
def concatStr (ds : List String) : String := ds.foldl (fun a b => a ++ b) ""

/-! ## Data model (§3 of the spec; `Source`/`Message` interfaces of the app) -/

/-- A cited source: `{ title: text, uri: text(URL) }`. -/
structure Source where
  title : String
  uri : String
deriving DecidableEq

/-- A chat message (`Message` interface of the app component).  Absent
optional fields are `none`. -/
structure Message where
  role : String
  content : String
  sources : Option (List Source)
  isWebSearch : Option Bool
deriving DecidableEq

/-! ## Upstream (Gemini) response shape, as destructured by `search.ts` -/

/-- One element of `content.parts`. -/
structure GPart where
  text : Option String
deriving DecidableEq

/-- Field `candidate.content`. -/
structure CandContent where
  parts : Option (List GPart)
deriving DecidableEq

/-- The `web` member of a grounding chunk. -/
structure WebInfo where
  uri : String
  title : Option String
deriving DecidableEq

/-- One grounding chunk: `{ web?: { uri, title? } }`. -/
structure GroundingChunk where
  web : Option WebInfo
deriving DecidableEq

/-- Field `candidate.groundingMetadata`. -/
structure GMeta where
  groundingChunks : Option (List GroundingChunk)
deriving DecidableEq

/-- One candidate of the upstream response. -/
structure Candidate where
  content : Option CandContent
  groundingMetadata : Option GMeta
deriving DecidableEq

/-- The parsed upstream JSON document (`data` in `search.ts`).
`errorMessage` collapses the optional chain `data?.error?.message`; both
an absent `error` object and an absent `message` are `none` (each is
falsy in the `||` expressions that consume it). -/
structure GenData where
  candidates : Option (List Candidate)
  errorMessage : Option String
deriving DecidableEq

/-- Chain `data.candidates?.[0]?.content?.parts?.[0]?.text` (search.ts:106,183). -/
def extractText (d : GenData) : Option String :=
  ((((d.candidates.bind List.head?).bind Candidate.content).bind
    CandContent.parts).bind List.head?).bind GPart.text

/-- Chain `data.candidates?.[0]?.groundingMetadata?.groundingChunks ?? []`
(search.ts:109,187). -/
def extractChunks (d : GenData) : List GroundingChunk :=
  (((d.candidates.bind List.head?).bind Candidate.groundingMetadata).bind
    GMeta.groundingChunks).getD []

/-- Mapping `chunks.filter(c => Boolean(c.web)).map(c => (\x7btitle: c.web.title || "출처", uri: c.web.uri\x7d))`
(search.ts:110-112,188-193). -/
def mapSources (cs : List GroundingChunk) : List Source :=
  (cs.filterMap GroundingChunk.web).map (fun w => ⟨orFalsy w.title "출처", w.uri⟩)

/-- Filter `sources.filter((s, i, arr) => arr.findIndex(t => t.uri === s.uri) === i)`
(search.ts:195-197): keep an entry exactly when its index is the first
index carrying its URI. -/
def dedupByUri (ss : List Source) : List Source :=
  ((ss.enum.filter fun is =>
    (ss.findIdx fun t => t.uri == is.2.uri) == is.1).map Prod.snd)

/-! ## Relay NDJSON event stream (search.ts streaming branch) -/

/-- A wire event enqueued by the relay's `TransformStream`
(each is serialised as one JSON line). -/
inductive RelayEvent where
  | delta (text : String)
  | sources (sources : List Source)
  | done
deriving DecidableEq

/-- Events enqueued for one parsed upstream chunk document
(search.ts:106-114 and 129-137): a `delta` when the candidate text is a
nonempty string, then a `sources` event when the mapped source list is
nonempty. -/
def relayDataEvents (d : GenData) : List RelayEvent :=
  (match extractText d with
    | some t => if t = "" then [] else [RelayEvent.delta t]
    | none => []) ++
  (let ss := mapSources (extractChunks d)
   if 0 < ss.length then [RelayEvent.sources ss] else [])

/-- Per-line body of the relay transform loop (search.ts:94-118):
trim, skip blank lines, `JSON.parse` (a throw — `p _ = none` — skips the
line), then emit the chunk's events.  `p` stands for `JSON.parse`. -/
def relayLineEvents (p : List Char → Option GenData) (line : List Char) :
    List RelayEvent :=
  let trimmed := trimChars line
  if trimmed = [] then []
  else
    match p trimmed with
    | none => []
    | some d => relayDataEvents d

/-- Events of a whole list of framed lines, in order. -/
def relayLinesEvents (p : List Char → Option GenData)
    (ls : List (List Char)) : List RelayEvent :=
  ls.flatMap (relayLineEvents p)

/-- The `flush` handler of the relay transform (search.ts:120-143): if the
retained buffer trims nonempty, try to parse it (untrimmed, as in the
source) and emit its events; always terminate with one `done`. -/
def relayFlush (p : List Char → Option GenData) (buf : List Char) :
    List RelayEvent :=
  (if trimChars buf = [] then []
   else
     match p buf with
     | none => []
     | some d => relayDataEvents d) ++ [RelayEvent.done]

/-! ## Line framing

`buffer += decoded; const lines = buffer.split("\n"); buffer = lines.pop()`
(search.ts:91-93 and the client loop): split a character list at
newlines into the complete lines and the trailing fragment. -/

/-- Split into (complete newline-terminated lines, trailing fragment). -/
def splitLines : List Char → List (List Char) × List Char
  | [] => ([], [])
  | c :: rest =>
    if c = '\n' then
      let r := splitLines rest
      ([] :: r.1, r.2)
    else
      match splitLines rest with
      | (l :: ls, t) => ((c :: l) :: ls, t)
      | ([], t) => ([], c :: t)

/-! ## Streaming UTF-8 text decoding

Models the WHATWG `TextDecoder` used by both sides.  The decoder state
is the byte list of the current incomplete sequence.  Simplifications
relative to the full standard (documented, irrelevant to the inputs of
this development): the continuation range is not narrowed for the
`E0/ED/F0/F4` lead bytes, and overlong/surrogate results are not
re-checked after assembly. -/

/-- Number of continuation bytes demanded by a (valid) lead byte. -/
def contNeeded (b : Nat) : Nat :=
  if b < 0xE0 then 1 else if b < 0xF0 then 2 else 3

/-- Is `b` a valid UTF-8 lead byte of a multi-byte sequence? -/
def validLead (b : Nat) : Bool := 0xC2 ≤ b && b ≤ 0xF4

/-- The U+FFFD replacement character. -/
def fffd : Char := Char.ofNat 0xFFFD

/-- Assemble a complete UTF-8 sequence (lead byte plus continuations)
into its character. -/
def assembleUtf8 (bytes : List Nat) : Char :=
  match bytes with
  | [l, c1] => Char.ofNat ((l % 0x20) * 64 + c1 % 0x40)
  | [l, c1, c2] => Char.ofNat ((l % 0x10) * 4096 + (c1 % 0x40) * 64 + c2 % 0x40)
  | [l, c1, c2, c3] =>
    Char.ofNat ((l % 8) * 262144 + (c1 % 0x40) * 4096 + (c2 % 0x40) * 64 + c3 % 0x40)
  | _ => fffd

/-- Decode one byte arriving with no pending incomplete sequence. -/
def freshByte (b : Nat) : List Char × List Nat :=
  if b < 0x80 then ([Char.ofNat b], [])
  else if validLead b then ([], [b])
  else ([fffd], [])

/-- One step of the streaming decoder: pending incomplete sequence plus
one input byte gives emitted characters and the new pending sequence. -/
def stepByte : List Nat → Nat → List Char × List Nat
  | [], b => freshByte b
  | lead :: rest, b =>
    if 0x80 ≤ b && b < 0xC0 then
      let pend := lead :: rest ++ [b]
      if pend.length = contNeeded lead + 1 then ([assembleUtf8 pend], [])
      else ([], pend)
    else
      let r := freshByte b
      (fffd :: r.1, r.2)

/-- Call `decoder.decode(bytes, \x7b stream: true \x7d)`: decode a byte chunk from
a given decoder state, returning the emitted characters and the new
state (a trailing incomplete sequence is retained, not emitted). -/
def decodeStream (st : List Nat) (bs : List Nat) : List Char × List Nat :=
  bs.foldl (fun acc b =>
    let r := stepByte acc.2 b
    (acc.1 ++ r.1, r.2)) (([] : List Char), st)

/-- UTF-8 encoding of one character (the inverse direction, used to
build concrete upstream byte streams). -/
def charBytes (c : Char) : List Nat :=
  let n := c.toNat
  if n < 0x80 then [n]
  else if n < 0x800 then [0xC0 + n / 64, 0x80 + n % 64]
  else if n < 0x10000 then
    [0xE0 + n / 4096, 0x80 + (n / 64) % 64, 0x80 + n % 64]
  else
    [0xF0 + n / 262144, 0x80 + (n / 4096) % 64, 0x80 + (n / 64) % 64, 0x80 + n % 64]

/-- UTF-8 bytes of a string. -/
def strBytes (s : String) : List Nat := s.data.flatMap charBytes

/-! ## Relay streaming transform over byte chunks

Faithful to search.ts:86-145: the text buffer persists across chunks,
but each `transform` call decodes its chunk with a **fresh**
`new TextDecoder()` (search.ts:91), so a pending incomplete byte
sequence is discarded with the throwaway decoder instance. -/

/-- One `transform` call: decode the byte chunk with a fresh decoder,
append to the retained text buffer, split off complete lines, emit
their events. -/
def relayChunkStep (p : List Char → Option GenData)
    (st : List Char × List RelayEvent) (chunk : List Nat) :
    List Char × List RelayEvent :=
  let text := (decodeStream [] chunk).1
  let split := splitLines (st.1 ++ text)
  (split.2, st.2 ++ relayLinesEvents p split.1)

/-- The whole relay stream: fold the transform over the upstream byte
chunks, then run the `flush` handler on the retained buffer. -/
def relayStreamBytesEvents (p : List Char → Option GenData)
    (chunks : List (List Nat)) : List RelayEvent :=
  let fin := chunks.foldl (relayChunkStep p) (([] : List Char), [])
  fin.2 ++ relayFlush p fin.1

/-! ## Relay request handling (search.ts:17-213) -/

/-- A JSON response body emitted by the relay.  The `envKeys` diagnostic
field of the configuration error is omitted (purely informational). -/
inductive JsonDoc where
  | errorDoc (error : String) (hint : Option String)
  | answerDoc (answer : String) (sources : List Source)
deriving DecidableEq

/-- The relay's response: a single JSON document with a status, or an
NDJSON event stream (status 200). -/
inductive RelayResponse where
  | json (status : Nat) (body : JsonDoc)
  | ndjson (events : List RelayEvent)
deriving DecidableEq

/-- Is the response an NDJSON stream? -/
def RelayResponse.isNdjson : RelayResponse → Bool
  | .ndjson _ => true
  | _ => false

/-- One history entry of the request body; `none` models an absent or
non-string field. -/
structure HistoryItem where
  role : Option String
  content : Option String
deriving DecidableEq

/-- The parsed request body.  `query = none` models an absent or
non-string `query`; `useWebSearch`/`stream` are the results of the
`Boolean(...)` coercions; a non-array `history` is modelled as `[]`. -/
structure ReqBody where
  query : Option String
  useWebSearch : Bool
  stream : Bool
  history : List HistoryItem
deriving DecidableEq

/-- One turn of the upstream prompt; `parts` is always the singleton
`[{text}]` in the source, so it is flattened to one text. -/
structure GeminiTurn where
  role : String
  text : String
deriving DecidableEq

/-- A record of one upstream call made by the relay: which model URL
(`webModel` = `useWebSearch`), whether the streaming endpoint was used,
the prompt contents, and whether the `google_search` tool was attached. -/
structure UpstreamCall where
  webModel : Bool
  streamMode : Bool
  contents : List GeminiTurn
  tools : Bool
deriving DecidableEq

/-- Behaviour of the upstream non-streaming endpoint for this request. -/
structure NonStreamUpstream where
  ok : Bool
  status : Nat
  statusText : String
  data : GenData

/-- Behaviour of the upstream streaming endpoint for this request. -/
structure StreamUpstream where
  ok : Bool
  status : Nat
  statusText : String
  errData : GenData
  chunks : List (List Nat)

/-- Expression `typeof body?.query === "string" ? body.query.trim() : ""` (search.ts:45). -/
def parsedQuery (b : ReqBody) : String :=
  match b.query with
  | some s => trimString s
  | none => ""

/-- History filter (search.ts:57-61): drop entries whose role is not
user/model or whose content is not a string; keep the rest as turns. -/
def filterHistory (hs : List HistoryItem) : List GeminiTurn :=
  hs.filterMap fun m =>
    match m.role, m.content with
    | some r, some c => if r = "user" ∨ r = "model" then some ⟨r, c⟩ else none
    | _, _ => none

/-- The prompt contents: the filtered history followed by the trimmed
query as the final user turn (search.ts:57-62). -/
def buildContents (hs : List HistoryItem) (query : String) : List GeminiTurn :=
  filterHistory hs ++ [⟨"user", query⟩]

/-- The fixed answer used when the upstream succeeds without candidate
text (search.ts:185). -/
def apologyAnswer : String := "죄송합니다. 답변을 생성하는 중에 문제가 발생했습니다."

/-- The streaming branch (search.ts:72-156), after the upstream call:
on failure a single JSON error document, else the NDJSON stream. -/
def streamingBranch (p : List Char → Option GenData) (stU : StreamUpstream)
    (call : UpstreamCall) : List UpstreamCall × RelayResponse :=
  if stU.ok then
    ([call], .ndjson (relayStreamBytesEvents p stU.chunks))
  else
    ([call],
      .json stU.status (.errorDoc (orFalsy stU.errData.errorMessage stU.statusText) none))

/-- The non-streaming branch (search.ts:158-205): on upstream failure a
JSON error document; on success the answer (or the fixed apology when no
candidate text is present) with the URI-deduplicated source list. -/
def nonStreamingBranch (ns : NonStreamUpstream) (call : UpstreamCall) :
    List UpstreamCall × RelayResponse :=
  if ns.ok then
    ([call],
      .json 200 (.answerDoc ((extractText ns.data).getD apologyAnswer)
        (dedupByUri (mapSources (extractChunks ns.data)))))
  else
    ([call],
      .json ns.status (.errorDoc (orFalsy ns.data.errorMessage ns.statusText) none))

/-- The handler `onRequestPost` (search.ts:17-213), as a function of the configured
API key, the parsed request body (`none` = invalid JSON), the two
possible upstream behaviours, and the `JSON.parse` model `p` for
upstream chunk lines.  Returns the upstream calls made and the
response.  The `fetch`-rejection catch branches are not modelled (the
upstream is treated as reachable). -/
def onRequestPost (apiKey : Option String) (body : Option ReqBody)
    (ns : NonStreamUpstream) (stU : StreamUpstream)
    (p : List Char → Option GenData) : List UpstreamCall × RelayResponse :=
  match apiKey with
  | none =>
    ([], .json 500 (.errorDoc "GEMINI_API_KEY is not configured."
      (some "로컬: 프로젝트 루트에 .dev.vars 파일에 GEMINI_API_KEY=키 입력. wrangler.toml 과 같은 폴더에 두세요.")))
  | some _ =>
    match body with
    | none => ([], .json 400 (.errorDoc "Invalid JSON body." none))
    | some b =>
      if parsedQuery b = "" then
        ([], .json 400 (.errorDoc "Missing or empty 'query'." none))
      else
        let contents := buildContents b.history (parsedQuery b)
        if b.stream && !b.useWebSearch then
          streamingBranch p stU ⟨b.useWebSearch, true, contents, b.useWebSearch⟩
        else
          nonStreamingBranch ns ⟨b.useWebSearch, false, contents, b.useWebSearch⟩

/-! ## Stream assembler (client `handleSearch`) -/

/-- The placeholder model message appended when a stream begins
(`{ role: "model", content: "", isWebSearch: false }`). -/
def placeholderMsg : Message := ⟨"model", "", none, some false⟩

/-- The `delta` update (client lines 148-154): drop the last message;
if it was a model message, re-append it with the delta concatenated to
its content, else re-append it unchanged.  On an empty list the JS code
would push `undefined`; that unreachable case is modelled as the empty
list. -/
def applyDelta (msgs : List Message) (t : String) : List Message :=
  match msgs.getLast? with
  | some last =>
    if last.role = "model" then
      msgs.dropLast ++ [{ last with content := last.content ++ t }]
    else msgs.dropLast ++ [last]
  | none => msgs.dropLast

/-- The `done` update (client lines 158-164): attach the accumulated
source list to the trailing model message. -/
def applyDone (msgs : List Message) (ss : List Source) : List Message :=
  match msgs.getLast? with
  | some last =>
    if last.role = "model" then
      msgs.dropLast ++ [{ last with sources := some ss }]
    else msgs.dropLast ++ [last]
  | none => msgs.dropLast

/-- The parsed value of one wire line on the client
(`{ type: string, text?: string, sources?: Source[] }`); `none` models
an absent or wrongly-typed field. -/
structure ClientLineData where
  type : String
  text : Option String
  sources : Option (List Source)
deriving DecidableEq

/-- The client's in-flight state: the message list, the local `sources`
accumulator, and the `isLoading` gate. -/
structure ClientState where
  messages : List Message
  sources : List Source
  isLoading : Bool
deriving DecidableEq

/-- Dispatch of one parsed wire event (client lines 147-165): `delta`
with a string text appends to the in-progress content; `sources` with an
array replaces the accumulator; `done` attaches the accumulator to the
trailing model message. -/
def applyData (st : ClientState) (d : ClientLineData) : ClientState :=
  if d.type = "delta" ∧ d.text.isSome then
    { st with messages := applyDelta st.messages (d.text.getD "") }
  else if d.type = "sources" ∧ d.sources.isSome then
    { st with sources := d.sources.getD [] }
  else if d.type = "done" then
    { st with messages := applyDone st.messages st.sources }
  else st

/-- One line of the client read loop (lines 142-169): trim, skip blank
lines, parse with `q` (a throw — `none` — skips the line), dispatch.
`q` stands for `JSON.parse`. -/
def clientLineStep (q : List Char → Option ClientLineData)
    (st : ClientState) (line : List Char) : ClientState :=
  let trimmed := trimChars line
  if trimmed = [] then st
  else
    match q trimmed with
    | none => st
    | some d => applyData st d

/-- Process a list of framed lines in order. -/
def clientRunLines (q : List Char → Option ClientLineData)
    (st : ClientState) (ls : List (List Char)) : ClientState :=
  ls.foldl (clientLineStep q) st

/-! ## Client failure fallback (lines 229-243) -/

/-- Test `/429|quota|rate limit|rate-limit/i.test(msg)`: case-insensitive
substring match of any of the four alternatives. -/
def isQuotaOrRateLimit (msg : String) : Bool :=
  let m := msg.data.map Char.toLower
  hasSub "429".data m || hasSub "quota".data m ||
    hasSub "rate limit".data m || hasSub "rate-limit".data m

/-- The rate-limit/quota fallback message (line 234). -/
def quotaMessage : String :=
  "웹 검색(Google Search) 할당량을 초과했거나 요청 제한에 걸렸습니다. 잠시 후 다시 시도하거나, 웹 검색을 OFF한 상태로 사용해 보세요."

/-- The generic failure fallback message (line 235). -/
def genericMessage : String :=
  "검색 중 오류가 발생했습니다. 잠시 후 다시 시도해주세요."

/-- The `catch`/`finally` path of `handleSearch` (lines 229-243):
classify the error text, append a model message carrying the matching
fixed fallback text, and release the loading gate (second component). -/
def handleSearchFailure (msgs : List Message) (useWebSearch : Bool)
    (errMsg : String) : List Message × Bool :=
  let displayMessage :=
    if isQuotaOrRateLimit errMsg then quotaMessage else genericMessage
  (msgs ++ [⟨"model", displayMessage, none, some useWebSearch⟩], false)

/-! ## Client request dispatch (lines 102-126) -/

/-- A `{role, content}` pair sent as request history. -/
structure RoleContent where
  role : String
  content : String
deriving DecidableEq

/-- The request body the client posts to `/api/search`; `stream` is
present (`some true`) exactly when the client is not using web search. -/
structure ApiRequest where
  query : String
  useWebSearch : Bool
  history : List RoleContent
  stream : Option Bool
deriving DecidableEq

/-- The dispatch prefix of `handleSearch` (lines 102-126): bail out when
the query trims empty or a request is pending; otherwise compute the
request history from the messages *before* appending the optimistic user
message, append that user message, and build the request. -/
def handleSearchDispatch (messages : List Message) (isLoading : Bool)
    (searchQuery : String) (useWebSearch : Bool) :
    Option (List Message × ApiRequest) :=
  if trimChars searchQuery.data = [] ∨ isLoading then none
  else
    some (messages ++ [⟨"user", searchQuery, none, none⟩],
      ⟨searchQuery, useWebSearch,
        messages.map (fun m => ⟨m.role, m.content⟩),
        if useWebSearch then none else some true⟩)

/-- Reinterpret the history the client sent as the relay's parsed
history items (every field present and a string). -/
def toHistoryItems (hs : List RoleContent) : List HistoryItem :=
  hs.map fun rc => ⟨some rc.role, some rc.content⟩

/-! ## Concrete fixtures

Concrete upstream behaviours and concrete `JSON.parse` models used to
instantiate the theorems below.  Each parse function is the partial
function agreeing with `JSON.parse` on the line strings that actually
arise in its scenario. -/

/-- An upstream chunk document carrying exactly one candidate text. -/
def geminiTextData (t : String) : GenData :=
  ⟨some [⟨some ⟨some [⟨some t⟩]⟩, none⟩], none⟩

/-- The ASCII JSON prefix up to the opening quote of the `text` value. -/
def jsonPre : String := "\x7b\"candidates\":[\x7b\"content\":\x7b\"parts\":[\x7b\"text\":\""

/-- The ASCII JSON suffix after the closing quote of the `text` value. -/
def jsonSuf : String := "\"\x7d]\x7d\x7d]\x7d"

/-- An upstream NDJSON line whose candidate text is the three-byte
character `한`. -/
def hanLine : String := jsonPre ++ "한" ++ jsonSuf

/-- The same line as mangled by a fresh-per-chunk decoder when the byte
stream is cut inside `한`: the pending lead byte is lost and the two
orphaned continuation bytes decode to replacement characters. -/
def garbledLine : String := jsonPre ++ "��" ++ jsonSuf

/-- Model of `JSON.parse` on the two (both valid-JSON) lines of the scenario. -/
def hanParse : List Char → Option GenData := fun l =>
  if l = hanLine.data then some (geminiTextData "한")
  else if l = garbledLine.data then some (geminiTextData "��")
  else none

/-- The UTF-8 byte stream of the `한` line. -/
def hanBytes : List Nat := strBytes (hanLine ++ "\n")

/-- A cut position inside the encoding of `한` (one byte past the ASCII
prefix, i.e. right after the lead byte `0xED`). -/
def hanCut : Nat := jsonPre.length + 1

/-- First byte chunk: the ASCII prefix plus the lead byte of `한`. -/
def hanChunk1 : List Nat := hanBytes.take hanCut

/-- Second byte chunk: the two continuation bytes of `한` and the rest. -/
def hanChunk2 : List Nat := hanBytes.drop hanCut

/-- An upstream NDJSON line whose grounding chunks cite the URI `u1`
twice (titles `A` and `B`). -/
def dupLine : String := "\x7b\"candidates\":[\x7b\"groundingMetadata\":\x7b\"groundingChunks\":[\x7b\"web\":\x7b\"uri\":\"u1\",\"title\":\"A\"\x7d\x7d,\x7b\"web\":\x7b\"uri\":\"u1\",\"title\":\"B\"\x7d\x7d]\x7d\x7d]\x7d"

/-- The parsed form of `dupLine`. -/
def dupData : GenData :=
  ⟨some [⟨none, some ⟨some [⟨some ⟨"u1", some "A"⟩⟩, ⟨some ⟨"u1", some "B"⟩⟩]⟩⟩], none⟩

/-- Model of `JSON.parse` on the one line of the duplicate-URI scenario. -/
def dupParse : List Char → Option GenData := fun l =>
  if l = dupLine.data then some dupData else none

/-- A successful but contentless non-streaming upstream. -/
def dummyNonStream : NonStreamUpstream := ⟨true, 200, "OK", ⟨none, none⟩⟩

/-- A successful streaming upstream emitting no chunks. -/
def dummyStreamUpstream : StreamUpstream := ⟨true, 200, "OK", ⟨none, none⟩, []⟩

/-- A successful streaming upstream whose single chunk is `dupLine`. -/
def dupStreamUpstream : StreamUpstream :=
  ⟨true, 200, "OK", ⟨none, none⟩, [strBytes (dupLine ++ "\n")]⟩

/-- A well-formed streaming request (`stream: true`, no web search). -/
def streamReqBody : ReqBody := ⟨some "q", false, true, []⟩

/-- A well-formed web-search request (`useWebSearch: true`). -/
def webSearchReqBody : ReqBody := ⟨some "q", true, false, []⟩

/-- A successful non-streaming upstream with answer text `ans` and four
grounding chunks whose URIs are `u1, u2, u1, u3` (titles `A,B,C,D`). -/
def dedupNonStream : NonStreamUpstream :=
  ⟨true, 200, "OK",
    ⟨some [⟨some ⟨some [⟨some "ans"⟩]⟩,
      some ⟨some [⟨some ⟨"u1", some "A"⟩⟩, ⟨some ⟨"u2", some "B"⟩⟩,
        ⟨some ⟨"u1", some "C"⟩⟩, ⟨some ⟨"u3", some "D"⟩⟩]⟩⟩], none⟩⟩

/-- A successful non-streaming upstream with no candidate text but one
grounding chunk (`uri u1`, title `T`). -/
def apologyNonStream : NonStreamUpstream :=
  ⟨true, 200, "OK", ⟨some [⟨none, some ⟨some [⟨some ⟨"u1", some "T"⟩⟩]⟩⟩], none⟩⟩

/-- A client-side `JSON.parse` recognising the single line `A`. -/
def demoClientParse : List Char → Option ClientLineData := fun l =>
  if l = "A".data then some ⟨"delta", some "A", none⟩ else none

/-! ## Helper lemmas -/

theorem str_empty_append (s : String) : "" ++ s = s := rfl

theorem foldl_append_str (ds : List String) (a : String) :
    ds.foldl (fun x y => x ++ y) a = a ++ concatStr ds := by
  induction ds generalizing a with
  | nil => simp [concatStr, String.append_empty]
  | cons d ds ih =>
    simp only [concatStr, List.foldl_cons] at *
    rw [ih (a ++ d), ih ("" ++ d), str_empty_append, String.append_assoc]

theorem concatStr_cons (d : String) (ds : List String) :
    concatStr (d :: ds) = d ++ concatStr ds := by
  simp only [concatStr, List.foldl_cons, str_empty_append]
  exact foldl_append_str ds d

/-- Appending a delta when the trailing message is a model message. -/
theorem applyDelta_concat (msgs : List Message) (m : Message)
    (h : m.role = "model") (t : String) :
    applyDelta (msgs ++ [m]) t =
      msgs ++ [{ m with content := m.content ++ t }] := by
  simp [applyDelta, List.getLast?_concat, List.dropLast_concat, h]

/-- Attaching sources when the trailing message is a model message. -/
theorem applyDone_concat (msgs : List Message) (m : Message)
    (h : m.role = "model") (ss : List Source) :
    applyDone (msgs ++ [m]) ss = msgs ++ [{ m with sources := some ss }] := by
  simp [applyDone, List.getLast?_concat, List.dropLast_concat, h]

/-- Folding a delta sequence over a trailing model message concatenates
all delta texts onto its content, in order. -/
theorem foldl_applyDelta (ds : List String) (msgs : List Message)
    (m : Message) (h : m.role = "model") :
    ds.foldl applyDelta (msgs ++ [m]) =
      msgs ++ [{ m with content := m.content ++ concatStr ds }] := by
  induction ds generalizing m with
  | nil => simp [concatStr, String.append_empty]
  | cons d ds ih =>
    rw [List.foldl_cons, applyDelta_concat msgs m h d,
      ih { m with content := m.content ++ d } h]
    rw [concatStr_cons, String.append_assoc]

/-! ## Claim theorems -/

/-- C3 (counterexample): the claim "applying a reordered sequence of
distinct deltas yields a different result" fails as a universal
statement: the two distinct deltas `"a"` and `"aa"`, applied to an
initially empty in-progress entry, give the same final state `"aaa"`
under the swap reordering. -/
theorem c3_reorder_counterexample :
    (["a", "aa"] : List String) ≠ ["aa", "a"] ∧
    List.Perm (["a", "aa"] : List String) ["aa", "a"] ∧
    ("a" : String) ≠ "aa" ∧
    ["a", "aa"].foldl applyDelta [placeholderMsg] =
      ["aa", "a"].foldl applyDelta [placeholderMsg] := by
  refine ⟨by decide, by decide, by decide, by decide⟩

/-- C3 (amended): for every delta sequence applied by the assembler's
`delta` handler to an initially empty in-progress model entry, the final
content is the concatenation of the deltas in arrival order; the
operation is order-sensitive in that reordering distinct deltas *can*
change the result (e.g. `"x","y"`), and it is non-idempotent (applying a
delta twice differs from applying it once) — though not every
reordering of distinct deltas changes the result. -/
theorem c3_delta_concat_order :
    (∀ (msgs : List Message) (ds : List String),
      ds.foldl applyDelta (msgs ++ [placeholderMsg]) =
        msgs ++ [Message.mk "model" (concatStr ds) none (some false)]) ∧
    (∃ d1 d2 : String, d1 ≠ d2 ∧
      [d1, d2].foldl applyDelta [placeholderMsg] ≠
        [d2, d1].foldl applyDelta [placeholderMsg]) ∧
    (∃ d : String,
      applyDelta (applyDelta [placeholderMsg] d) d ≠
        applyDelta [placeholderMsg] d) := by
  refine ⟨?_, ⟨"x", "y", by decide, by decide⟩, ⟨"a", by decide⟩⟩
  intro msgs ds
  have h := foldl_applyDelta ds msgs placeholderMsg rfl
  simpa [placeholderMsg, str_empty_append] using h

/-- C4: a `sources` event always replaces the accumulated source list
(whatever it was), the latest `sources` event wins, and the final
replacement is what `done` attaches to the finalized entry: after
`sources [a,b]`, `sources [c]`, `done` the entry's list is exactly
`[c]`. -/
theorem c4_sources_replace :
    (∀ (st : ClientState) (ss : List Source),
      (applyData st ⟨"sources", none, some ss⟩).sources = ss) ∧
    (∀ (msgs : List Message) (a b c : Source) (acc : List Source) (ld : Bool),
      applyData (applyData (applyData ⟨msgs ++ [placeholderMsg], acc, ld⟩
          ⟨"sources", none, some [a, b]⟩) ⟨"sources", none, some [c]⟩)
          ⟨"done", none, none⟩ =
        ⟨msgs ++ [{ placeholderMsg with sources := some [c] }], [c], ld⟩) := by
  constructor
  · intro st ss
    simp [applyData]
  · intro msgs a b c acc ld
    simp [applyData, applyDone_concat msgs placeholderMsg rfl]

/-- C6: every client-visible failure appends the model entry carrying
one of the two fixed fallback messages — the quota/rate variant exactly
when the case-insensitive pattern over "429"/"quota"/"rate limit"
matches the error text — releases the loading gate, and the two
fallback messages are distinct. -/
theorem c6_failure_fallback :
    (∀ (msgs : List Message) (uws : Bool) (errMsg : String),
      handleSearchFailure msgs uws errMsg =
        (msgs ++ [Message.mk "model"
          (if isQuotaOrRateLimit errMsg then quotaMessage else genericMessage)
          none (some uws)], false)) ∧
    quotaMessage ≠ genericMessage ∧
    isQuotaOrRateLimit "HTTP 429" = true ∧
    isQuotaOrRateLimit "You exceeded your QUOTA." = true ∧
    isQuotaOrRateLimit "Rate Limit reached" = true ∧
    isQuotaOrRateLimit "rate-limited" = true ∧
    isQuotaOrRateLimit "network down" = false := by
  exact ⟨fun msgs uws errMsg => rfl, by decide, by decide, by decide,
    by decide, by decide, by decide⟩

/-- A line whose (trimmed) content does not parse contributes no relay
events. -/
theorem relayLineEvents_eq_nil (p : List Char → Option GenData)
    (l : List Char) (h : p (trimChars l) = none) :
    relayLineEvents p l = [] := by
  unfold relayLineEvents
  by_cases ht : trimChars l = [] <;> simp [ht, h]

/-- A line whose (trimmed) content does not parse leaves the client
state unchanged. -/
theorem clientLineStep_eq_self (q : List Char → Option ClientLineData)
    (st : ClientState) (l : List Char) (h : q (trimChars l) = none) :
    clientLineStep q st l = st := by
  unfold clientLineStep
  by_cases ht : trimChars l = [] <;> simp [ht, h]

/-- C7: a malformed (unparseable) NDJSON line is skipped individually by
both the relay's per-line decoder and the assembler's per-line decoder:
the events of all well-formed lines before and after it are preserved
and processing continues. -/
theorem c7_malformed_line_skipped (p : List Char → Option GenData)
    (q : List Char → Option ClientLineData) (st : ClientState)
    (ls1 ls2 : List (List Char)) (bad : List Char)
    (hp : p (trimChars bad) = none) (hq : q (trimChars bad) = none) :
    relayLinesEvents p (ls1 ++ bad :: ls2) =
      relayLinesEvents p ls1 ++ relayLinesEvents p ls2 ∧
    clientRunLines q st (ls1 ++ bad :: ls2) =
      clientRunLines q st (ls1 ++ ls2) := by
  constructor
  · unfold relayLinesEvents
    rw [List.flatMap_append, List.flatMap_cons,
      relayLineEvents_eq_nil p bad hp]
    simp
  · unfold clientRunLines
    rw [List.foldl_append, List.foldl_append, List.foldl_cons,
      clientLineStep_eq_self q _ bad hq]

/-- C7 witness: a concrete malformed line `zz` between a well-formed
line (the duplicate-URI grounding line, yielding a `sources` event) and
a blank line, for both decoders. -/
theorem c7_malformed_line_skipped_witness :
    relayLinesEvents dupParse ([dupLine.data] ++ "zz".data :: ["y".data]) =
      relayLinesEvents dupParse [dupLine.data] ++
        relayLinesEvents dupParse ["y".data] ∧
    clientRunLines demoClientParse ⟨[placeholderMsg], [], true⟩
        ([dupLine.data] ++ "zz".data :: ["y".data]) =
      clientRunLines demoClientParse ⟨[placeholderMsg], [], true⟩
        ([dupLine.data] ++ ["y".data]) :=
  c7_malformed_line_skipped dupParse demoClientParse
    ⟨[placeholderMsg], [], true⟩ [dupLine.data] ["y".data] "zz".data
    (by decide) (by decide)

/-- The source list produced by the non-streaming dedup filter carries
pairwise-distinct URIs. -/
theorem dedupByUri_uris_nodup (ss : List Source) :
    ((dedupByUri ss).map Source.uri).Nodup := by
  unfold dedupByUri
  rw [List.map_map]
  show List.Pairwise _ _
  rw [List.pairwise_map]
  have h1 : (ss.enum).Pairwise (fun a b : Nat × Source => a.1 ≠ b.1) := by
    have h0 : (ss.enum.map Prod.fst).Nodup := by
      rw [List.enum_map_fst]; exact List.nodup_range _
    rw [List.Nodup] at h0
    rw [List.pairwise_map] at h0
    exact h0
  have h2 := h1.filter (fun is =>
    (ss.findIdx fun t => t.uri == is.2.uri) == is.1)
  refine List.Pairwise.imp_of_mem ?_ h2
  intro a b ha hb hne heq
  apply hne
  have pa := List.of_mem_filter ha
  have pb := List.of_mem_filter hb
  have pa' : (ss.findIdx fun t => t.uri == a.2.uri) = a.1 := eq_of_beq pa
  have pb' : (ss.findIdx fun t => t.uri == b.2.uri) = b.1 := eq_of_beq pb
  simp only [Function.comp] at heq
  have hfun : (fun t : Source => t.uri == a.2.uri) =
      (fun t : Source => t.uri == b.2.uri) := by
    funext t
    rw [heq]
  rw [← pa', ← pb', hfun]

set_option maxRecDepth 100000 in
/-- C1 (counterexample): the claim fails for streaming responses — for
the upstream chunk line whose grounding chunks cite `u1` twice, the
relay's streaming response emits a `sources` event whose list contains
two `Source` entries sharing the URI `u1` (the streaming branch never
deduplicates). -/
theorem c1_streaming_duplicate_uris :
    (onRequestPost (some "k") (some streamReqBody) dummyNonStream
        dupStreamUpstream dupParse).2 =
      .ndjson [.sources [⟨"A", "u1"⟩, ⟨"B", "u1"⟩], .done] ∧
    ¬ (([Source.mk "A" "u1", Source.mk "B" "u1"]).map Source.uri).Nodup := by
  exact ⟨by decide, by decide⟩

set_option maxRecDepth 100000 in
/-- C1 (amended): for the relay's *non-streaming* response, no two
entries of the sources list share a URI (first occurrence wins): the
dedup filter always yields pairwise-distinct URIs, and for upstream
grounding chunks with URIs `u1, u2, u1, u3` the response lists each of
`u1, u2, u3` exactly once, in first-occurrence order.  (The streaming
path republishes each chunk's source list without deduplication.) -/
theorem c1_dedup_nonstreaming :
    (∀ ss : List Source, ((dedupByUri ss).map Source.uri).Nodup) ∧
    (onRequestPost (some "k") (some webSearchReqBody) dedupNonStream
        dummyStreamUpstream dupParse).2 =
      .json 200 (.answerDoc "ans"
        [⟨"A", "u1"⟩, ⟨"B", "u2"⟩, ⟨"D", "u3"⟩]) := by
  exact ⟨dedupByUri_uris_nodup, by decide⟩

set_option maxRecDepth 1000000 in
/-- C2: the relay's framing is *not* chunk-boundary independent at the
byte level — delivering the `한` line cut inside the character's UTF-8
encoding yields a different event sequence than delivering the same
bytes whole, because each `transform` call decodes its chunk with a
fresh `TextDecoder`, losing the pending lead byte.  The assembler, which
keeps one decoder across chunks, does not have this defect. -/
theorem c2_relay_chunk_split_divergence :
    relayStreamBytesEvents hanParse [hanChunk1, hanChunk2] =
      [RelayEvent.delta "��", RelayEvent.done] ∧
    relayStreamBytesEvents hanParse [hanChunk1 ++ hanChunk2] =
      [RelayEvent.delta "한", RelayEvent.done] ∧
    relayStreamBytesEvents hanParse [hanChunk1, hanChunk2] ≠
      relayStreamBytesEvents hanParse [hanChunk1 ++ hanChunk2] := by
  exact ⟨by decide, by decide, by decide⟩

/-- C5: when `useWebSearch` is true the relay never returns an NDJSON
stream, every upstream call it makes uses the non-streaming endpoint —
regardless of the client's `stream` flag — and on upstream success (with
a valid query) the response is the single JSON document
`{ answer, sources }`. -/
theorem c5_websearch_json_only (key : String) (b : ReqBody)
    (ns : NonStreamUpstream) (stU : StreamUpstream)
    (p : List Char → Option GenData) (h : b.useWebSearch = true) :
    (onRequestPost (some key) (some b) ns stU p).2.isNdjson = false ∧
    ((onRequestPost (some key) (some b) ns stU p).1.all
      fun c => !c.streamMode) = true ∧
    (ns.ok = true → parsedQuery b ≠ "" →
      (onRequestPost (some key) (some b) ns stU p).2 =
        .json 200 (.answerDoc ((extractText ns.data).getD apologyAnswer)
          (dedupByUri (mapSources (extractChunks ns.data))))) := by
  have hcond : (b.stream && !b.useWebSearch) = false := by rw [h]; simp
  by_cases hq : parsedQuery b = ""
  · refine ⟨?_, ?_, ?_⟩ <;>
      simp [onRequestPost, hq, RelayResponse.isNdjson]
  · by_cases hok : ns.ok <;>
      refine ⟨?_, ?_, ?_⟩ <;>
        simp [onRequestPost, hq, hcond, nonStreamingBranch, hok,
          RelayResponse.isNdjson]

set_option maxRecDepth 100000 in
/-- C5 witness: the concrete web-search request against the upstream
with duplicate grounding URIs. -/
theorem c5_websearch_json_only_witness :
    (onRequestPost (some "k") (some webSearchReqBody) dedupNonStream
        dummyStreamUpstream dupParse).2.isNdjson = false ∧
    ((onRequestPost (some "k") (some webSearchReqBody) dedupNonStream
        dummyStreamUpstream dupParse).1.all fun c => !c.streamMode) = true ∧
    (onRequestPost (some "k") (some webSearchReqBody) dedupNonStream
        dummyStreamUpstream dupParse).2 =
      .json 200 (.answerDoc "ans" [⟨"A", "u1"⟩, ⟨"B", "u2"⟩, ⟨"D", "u3"⟩]) := by
  have h := c5_websearch_json_only "k" webSearchReqBody dedupNonStream
    dummyStreamUpstream dupParse rfl
  refine ⟨h.1, h.2.1, ?_⟩
  rw [h.2.2 rfl (by decide)]
  decide

/-- C8: a request whose query trims to the empty string (or whose query
field is missing or not a string, which parses to the same empty query)
yields the 400 validation error with no upstream call; an invalid-JSON
body likewise yields a 400 with no upstream call. -/
theorem c8_empty_query_validation (key : String) (b : ReqBody)
    (ns : NonStreamUpstream) (stU : StreamUpstream)
    (p : List Char → Option GenData) :
    (parsedQuery b = "" →
      onRequestPost (some key) (some b) ns stU p =
        ([], .json 400 (.errorDoc "Missing or empty 'query'." none))) ∧
    onRequestPost (some key) none ns stU p =
      ([], .json 400 (.errorDoc "Invalid JSON body." none)) := by
  exact ⟨fun h => by simp [onRequestPost, h], rfl⟩

/-- C8 witness: the whitespace-only query `"   "` and the invalid-JSON
body, both at concrete inputs. -/
theorem c8_empty_query_validation_witness :
    onRequestPost (some "k") (some (ReqBody.mk (some "   ") false false []))
        dummyNonStream dummyStreamUpstream dupParse =
      ([], .json 400 (.errorDoc "Missing or empty 'query'." none)) ∧
    onRequestPost (some "k") none dummyNonStream dummyStreamUpstream dupParse =
      ([], .json 400 (.errorDoc "Invalid JSON body." none)) :=
  ⟨(c8_empty_query_validation "k" ⟨some "   ", false, false, []⟩ dummyNonStream
      dummyStreamUpstream dupParse).1 (by decide),
    (c8_empty_query_validation "k" ⟨some "   ", false, false, []⟩ dummyNonStream
      dummyStreamUpstream dupParse).2⟩

/-- C9: the dispatched request's history is computed from the message
list *before* the optimistic append of the current user message (so it
has exactly the prior entries and never includes the query being asked,
which travels only in the query field), and the relay places the query
as the final user turn after the filtered history. -/
theorem c9_history_excludes_query (msgs : List Message) (q : String)
    (uws : Bool) (hist : List RoleContent) (q' : String)
    (h : trimChars q.data ≠ []) :
    handleSearchDispatch msgs false q uws =
      some (msgs ++ [Message.mk "user" q none none],
        ApiRequest.mk q uws
          (msgs.map fun m => RoleContent.mk m.role m.content)
          (if uws then none else some true)) ∧
    (msgs.map fun m => RoleContent.mk m.role m.content).length =
      msgs.length ∧
    (buildContents (toHistoryItems hist) q').getLast? =
      some (GeminiTurn.mk "user" q') ∧
    (buildContents (toHistoryItems hist) q').dropLast =
      filterHistory (toHistoryItems hist) := by
  refine ⟨?_, by simp, ?_, ?_⟩
  · simp [handleSearchDispatch, h]
  · simp [buildContents, List.getLast?_concat]
  · simp [buildContents, List.dropLast_concat]

/-- C9 witness: a concrete two-message conversation and a concrete
history containing one malformed entry. -/
theorem c9_history_excludes_query_witness :
    handleSearchDispatch
        [Message.mk "user" "a" none none, Message.mk "model" "b" none none]
        false "hi" false =
      some ([Message.mk "user" "a" none none,
          Message.mk "model" "b" none none, Message.mk "user" "hi" none none],
        ApiRequest.mk "hi" false
          [RoleContent.mk "user" "a", RoleContent.mk "model" "b"]
          (some true)) ∧
    ([RoleContent.mk "user" "a", RoleContent.mk "model" "b"] :
      List RoleContent).length =
      ([Message.mk "user" "a" none none,
        Message.mk "model" "b" none none] : List Message).length ∧
    (buildContents (toHistoryItems
        [RoleContent.mk "user" "a", RoleContent.mk "sys" "x"]) "hi").getLast? =
      some (GeminiTurn.mk "user" "hi") ∧
    (buildContents (toHistoryItems
        [RoleContent.mk "user" "a", RoleContent.mk "sys" "x"]) "hi").dropLast =
      filterHistory (toHistoryItems
        [RoleContent.mk "user" "a", RoleContent.mk "sys" "x"]) :=
  c9_history_excludes_query
    [Message.mk "user" "a" none none, Message.mk "model" "b" none none]
    "hi" false [RoleContent.mk "user" "a", RoleContent.mk "sys" "x"] "hi"
    (by decide)

/-- C10: a non-streaming request whose upstream succeeds without any
candidate text does not fail: the relay answers 200 with the fixed
apology string and the sources computed from whatever grounding chunks
are present. -/
theorem c10_missing_text_apology (key : String) (b : ReqBody)
    (ns : NonStreamUpstream) (stU : StreamUpstream)
    (p : List Char → Option GenData)
    (hq : parsedQuery b ≠ "") (hmode : (b.stream && !b.useWebSearch) = false)
    (hok : ns.ok = true) (htext : extractText ns.data = none) :
    (onRequestPost (some key) (some b) ns stU p).2 =
      .json 200 (.answerDoc apologyAnswer
        (dedupByUri (mapSources (extractChunks ns.data)))) := by
  simp [onRequestPost, hq, hmode, nonStreamingBranch, hok, htext]

set_option maxRecDepth 100000 in
/-- C10 witness: a successful upstream with one grounding chunk and no
candidate text yields 200, the apology answer, and that source. -/
theorem c10_missing_text_apology_witness :
    (onRequestPost (some "k") (some (ReqBody.mk (some "hi") false false []))
        apologyNonStream dummyStreamUpstream dupParse).2 =
      .json 200 (.answerDoc apologyAnswer [Source.mk "T" "u1"]) := by
  rw [c10_missing_text_apology "k" ⟨some "hi", false, false, []⟩
    apologyNonStream dummyStreamUpstream dupParse (by decide) (by decide)
    rfl rfl]
  decide

end Jupt
